import Mathlib

/-!
Shallow embedding of the Heptapod B semagram generator (src/script.js).

Modelling conventions.  JavaScript 32-bit integer coercions (the bit
operations inside mulberry32 and hashStringToInt) are modelled on ℕ
modulo 2 ^ 32; every value these code paths produce is an exact integer
below 2 ^ 53, so double arithmetic on them is exact.  Slider parameters,
RNG outputs k / 2 ^ 32 and the arithmetic combining them are modelled in
ℚ (the decimal literals of the source are exact decimals here).  An SVG
arc is modelled by the numeric data that determines its path string:
radius and the two angles, where an angle is kept as a pair
(coefficient of pi, rational remainder), which determines the real
angle exactly.  Strings are modelled as lists of UTF-16 code units.
-/

namespace Heptapod

/-- Modulus of JavaScript 32-bit integer coercions (2 ^ 32). -/
def UINT32 : ℕ := 2 ^ 32

/-- Math.imul: 32-bit integer multiplication, kept as the unsigned
bit pattern. -/
def imul32 (x y : ℕ) : ℕ := (x * y) % UINT32

/-- One step of the mulberry32 generator of src/script.js lines 4-11:
given the current state (the unsigned bit pattern of the captured
variable a), returns the numerator of the produced value (the value is
numerator / 2 ^ 32) together with the updated state. -/
def mulberry32Step (a : ℕ) : ℕ × ℕ :=
  let a2 := (a + 0x6d2b79f5) % UINT32
  let t1 := imul32 (a2 ^^^ (a2 >>> 15)) (a2 ||| 1)
  let t2 := t1 ^^^ ((t1 + imul32 (t1 ^^^ (t1 >>> 7)) (t1 ||| 61)) % UINT32)
  (t2 ^^^ (t2 >>> 14), a2)

/-- One draw from the seeded stream: the rational value in [0, 1) and
the updated state. -/
def rnd (st : ℕ) : ℚ × ℕ :=
  let r := mulberry32Step st
  ((r.1 : ℚ) / 4294967296, r.2)

/-- The FNV-style fold of hashStringToInt (src/script.js lines 14-18):
h starts at 2166136261 and for each character code c becomes
Math.imul(h xor c, 16777619). -/
def fnvFold (str : List ℕ) : ℕ :=
  str.foldl (fun h c => imul32 (h ^^^ c) 16777619) 2166136261

/-- hashStringToInt of src/script.js lines 13-20 over the list of
UTF-16 code units of the input string (charCodeAt values, each below
2 ^ 16); the final (h >>> 0) || 1 replaces a zero hash by 1. -/
def hashStringToInt (str : List ℕ) : ℕ :=
  if fnvFold str = 0 then 1 else fnvFold str

theorem imul32_lt (x y : ℕ) : imul32 x y < UINT32 :=
  Nat.mod_lt _ (by norm_num [UINT32])

theorem xor_lt_uint32 {x y : ℕ} (hx : x < UINT32) (hy : y < UINT32) :
    x ^^^ y < UINT32 :=
  Nat.xor_lt_two_pow hx hy

theorem shiftRight_lt_uint32 {x : ℕ} (hx : x < UINT32) (k : ℕ) :
    x >>> k < UINT32 := by
  calc x >>> k ≤ x := by
        rw [Nat.shiftRight_eq_div_pow]; exact Nat.div_le_self _ _
    _ < UINT32 := hx

theorem mulberry32Step_out_lt (a : ℕ) : (mulberry32Step a).1 < UINT32 := by
  have key : ∀ t1 : ℕ, t1 < UINT32 →
      (t1 ^^^ ((t1 + imul32 (t1 ^^^ (t1 >>> 7)) (t1 ||| 61)) % UINT32)) ^^^
        ((t1 ^^^ ((t1 + imul32 (t1 ^^^ (t1 >>> 7)) (t1 ||| 61)) % UINT32)) >>> 14) <
        UINT32 := by
    intro t1 h1
    have h2 : t1 ^^^ ((t1 + imul32 (t1 ^^^ (t1 >>> 7)) (t1 ||| 61)) % UINT32) <
        UINT32 :=
      xor_lt_uint32 h1 (Nat.mod_lt _ (by norm_num [UINT32]))
    exact xor_lt_uint32 h2 (shiftRight_lt_uint32 h2 14)
  exact key _ (imul32_lt _ _)

theorem rnd_nonneg (st : ℕ) : 0 ≤ (rnd st).1 := by
  unfold rnd
  positivity

theorem rnd_lt_one (st : ℕ) : (rnd st).1 < 1 := by
  unfold rnd
  rw [div_lt_one (by norm_num)]
  have h := mulberry32Step_out_lt st
  have : ((mulberry32Step st).1 : ℚ) < ((UINT32 : ℕ) : ℚ) := by
    exact_mod_cast h
  simpa [UINT32] using this

theorem fnvFold_lt (str : List ℕ) : fnvFold str < UINT32 := by
  unfold fnvFold
  have h : ∀ (l : List ℕ) (h0 : ℕ), h0 < UINT32 →
      l.foldl (fun h c => imul32 (h ^^^ c) 16777619) h0 < UINT32 := by
    intro l
    induction l with
    | nil => intro h0 hh; simpa using hh
    | cons c cs ih =>
      intro h0 _
      exact ih _ (imul32_lt _ _)
  exact h str 2166136261 (by norm_num [UINT32])

theorem hashStringToInt_lt (str : List ℕ) : hashStringToInt str < UINT32 := by
  unfold hashStringToInt
  split
  · norm_num [UINT32]
  · exact fnvFold_lt str

/-- lerp of src/script.js lines 52-54. -/
def lerp (a b t : ℚ) : ℚ := a + (b - a) * t

/-- clamp of src/script.js lines 68-70 on rational values:
Math.max(lo, Math.min(hi, n)). -/
def clamp (n lo hi : ℚ) : ℚ := max lo (min hi n)

/-- clamp of src/script.js lines 68-70 applied to integer values (as in
chooseSpokes, where the clamped quantity is a Math.floor result). -/
def clampZ (n lo hi : ℤ) : ℤ := max lo (min hi n)

/-- The fixed spoke-count candidate list of src/script.js line 74. -/
def candidates : List ℕ := [7, 9, 11, 13, 17, 19]

/-- chooseSpokes of src/script.js lines 73-77:
candidates[clamp(Math.floor((wordCount - 3) / 3), 0, candidates.length - 1)]. -/
def chooseSpokes (wordCount : ℕ) : ℕ :=
  candidates.getD
    (clampZ ⌊((wordCount : ℚ) - 3) / 3⌋ 0 ((candidates.length : ℤ) - 1)).toNat 0

/-- ASCII lower-casing of one UTF-16 code unit (the effect of
String.prototype.toLowerCase on the A-Z range; other code units on the
relevant inputs are unchanged). -/
def toLowerCode (c : ℕ) : ℕ := if 65 ≤ c ∧ c ≤ 90 then c + 32 else c

/-- Membership in the regex character class [a-z0-9'] of
src/script.js line 80 (code 39 is the apostrophe). -/
def isWordChar (c : ℕ) : Bool :=
  (97 ≤ c && c ≤ 122) || (48 ≤ c && c ≤ 57) || c == 39

/-- Helper for the global regex match of line 80: scans the code list
and returns the current run of word characters (still open on the
left) together with the completed maximal runs to the right. -/
def matchRunsAux (l : List ℕ) : List ℕ × List (List ℕ) :=
  match l with
  | [] => ([], [])
  | c :: rest =>
    let r := matchRunsAux rest
    if isWordChar c then (c :: r.1, r.2)
    else ([], if r.1 = [] then r.2 else r.1 :: r.2)

/-- text.match(/[a-z0-9']+/g) || [] of src/script.js line 80: the
maximal nonempty runs of word characters, in input order. -/
def matchRuns (l : List ℕ) : List (List ℕ) :=
  let r := matchRunsAux l
  if r.1 = [] then r.2 else r.1 :: r.2

/-- The fixed stop-word list of src/script.js line 81, as code lists:
the, a, an, and, or, but, is, was, am, are. -/
def stopWords : List (List ℕ) :=
  [[116, 104, 101], [97], [97, 110], [97, 110, 100], [111, 114],
   [98, 117, 116], [105, 115], [119, 97, 115], [97, 109], [97, 114, 101]]

/-- splitContentWords of src/script.js lines 79-83: lower-case the
text, take the maximal [a-z0-9'] runs, and drop the stop words. -/
def splitContentWords (text : List ℕ) : List (List ℕ) :=
  (matchRuns (text.map toLowerCode)).filter (fun w => !(stopWords.contains w))

/-- The perspective enum of src/script.js line 29. -/
inductive Perspective where
  | first : Perspective
  | second : Perspective
  | third : Perspective
deriving DecidableEq, Repr

/-- An angle in radians, represented exactly as
piCoeff * pi + const with rational piCoeff and const. -/
structure Angle where
  piCoeff : ℚ
  const : ℚ
deriving DecidableEq, Repr

/-- One arc segment of a ring (src/script.js lines 107-131): the data
determining the path string d (radius and the two angles passed to
arcPath, perspective rotation included), the stroke width w, the dash
pattern (the two lerp values of the dasharray, if any) and the
opacity. -/
structure ArcSeg where
  r : ℚ
  a0 : Angle
  a1 : Angle
  w : ℚ
  dash : Option (ℚ × ℚ)
  opacity : ℚ
deriving DecidableEq, Repr

/-- One radial connector (src/script.js lines 142-147): the endpoint
coordinates are polar(0,0,r0,a) and polar(0,0,r1,a), so the record
keeps the determining data r0, r1, a together with width and
opacity. -/
structure Connector where
  r0 : ℚ
  r1 : ℚ
  a : Angle
  w : ℚ
  opacity : ℚ
deriving DecidableEq, Repr

/-- The value generateSegments returns (src/script.js line 151). -/
structure Geometry where
  segments : List (List ArcSeg)
  connectors : List (List Connector)
  rings : ℕ
  spokes : ℕ
  radiusBase : ℚ
  ringGap : ℚ
deriving DecidableEq, Repr

/-- The scalar semantic parameters of SemagramParams
(src/script.js lines 23-34) other than the two text fields. -/
structure GeomScalars where
  certainty : ℚ
  modality : ℚ
  temporality : ℚ
  agency : ℚ
  emphasis : ℚ
  perspective : Perspective
  negation : Bool
  hypothetical : Bool
deriving DecidableEq, Repr

/-- SemagramParams of src/script.js lines 23-34; the two strings are
lists of UTF-16 code units. -/
structure SemagramParams where
  proposition : List ℕ
  certainty : ℚ
  modality : ℚ
  temporality : ℚ
  agency : ℚ
  perspective : Perspective
  negation : Bool
  hypothetical : Bool
  emphasis : ℚ
  seed : List ℕ
deriving DecidableEq, Repr

/-- The scalar parameters of a SemagramParams record. -/
def scalarsOf (p : SemagramParams) : GeomScalars :=
  ⟨p.certainty, p.modality, p.temporality, p.agency, p.emphasis,
   p.perspective, p.negation, p.hypothetical⟩

/-- Runs a stateful step over a list, threading the RNG state from
left to right, exactly as the sequential loops of generateSegments
consume the single seeded stream. -/
def mapState {α β : Type} (f : α → ℕ → β × ℕ) : List α → ℕ → List β × ℕ
  | [], st => ([], st)
  | x :: xs, st =>
    let r := f x st
    let rest := mapState f xs r.2
    (r.1 :: rest.1, rest.2)

/-- The perspective rotation of src/script.js line 125. -/
def perspRotVal : Perspective → ℚ
  | Perspective.first => 0
  | Perspective.second => 0.12
  | Perspective.third => -0.12

/-- The stroke width of src/script.js line 116:
clamp(lerp(1.2, 5.5, certainty) * lerp(0.8, 1.15, emphasis)
* (1 - i * 0.03), 0.8, 7) for ring index i. -/
def strokeWidth (certainty emphasis : ℚ) (i : ℕ) : ℚ :=
  clamp (lerp 1.2 5.5 certainty * lerp 0.8 1.15 emphasis * (1 - (i : ℚ) * 0.03))
    0.8 7

/-- The dash pattern selection of src/script.js lines 119-122, keeping
the two lerp values that make up the dasharray string. -/
def dashPattern (v : GeomScalars) : Option (ℚ × ℚ) :=
  if v.negation && v.hypothetical then
    some (lerp 2 6 v.certainty, lerp 1 3 (1 - v.certainty))
  else if v.negation then
    some (lerp 4 9 (1 - v.certainty), lerp 2 4 v.certainty)
  else if v.hypothetical then
    some (lerp 1.5 4 (1 - v.certainty), lerp 1 3 v.certainty)
  else none

/-- The body of the inner segment loop of src/script.js lines 107-131:
one arc segment of ring i at spoke s, drawing jitter, direction and
opacity from the stream in that order. -/
def segStep (v : GeomScalars) (spokes : ℕ) (r bias : ℚ) (i : ℕ) (s : ℕ)
    (st : ℕ) : ArcSeg × ℕ :=
  let a0 : Angle := ⟨2 * (s : ℚ) / (spokes : ℚ), bias * 0.2⟩
  let dj := rnd st
  let jitter := (dj.1 - 0.5) * (0.25 + v.temporality * 0.35)
  let span := lerp 0.7 1.55 v.temporality + jitter
  let dd := rnd dj.2
  let direction : ℚ := if dd.1 > 0.5 then 1 else -1
  let w := strokeWidth v.certainty v.emphasis i
  let perspRot := perspRotVal v.perspective
  let dop := rnd dd.2
  let opacity := 0.7 + (dop.1 - 0.5) * 0.1 + (v.agency - 0.5) * 0.1
  (⟨r, ⟨a0.piCoeff, a0.const + perspRot⟩,
    ⟨a0.piCoeff, a0.const + span * direction + perspRot⟩,
    w, dashPattern v, clamp opacity 0.45 1⟩, dop.2)

/-- The body of the ring loop of src/script.js lines 100-134: the ring
bias is drawn first, then the spokes segments in order. -/
def ringStep (v : GeomScalars) (spokes : ℕ) (radiusBase ringGap : ℚ) (i : ℕ)
    (st : ℕ) : List ArcSeg × ℕ :=
  let r := radiusBase + (i : ℚ) * ringGap
  let d := rnd st
  let bias := lerp (-0.6) 0.6 v.modality + (d.1 - 0.5) * 0.2
  mapState (segStep v spokes r bias i) (List.range spokes) d.2

/-- One connector of src/script.js lines 142-147 at spoke s, drawing
its angle jitter from the stream. -/
def connSegStep (v : GeomScalars) (spokes : ℕ) (r0 r1 : ℚ) (s : ℕ)
    (st : ℕ) : Connector × ℕ :=
  let da := rnd st
  (⟨r0, r1, ⟨2 * (s : ℚ) / (spokes : ℚ), (da.1 - 0.5) * 0.03⟩,
    lerp 0.6 2.2 v.certainty, 0.25 + v.temporality * 0.25⟩, da.2)

/-- The body of the connector loop of src/script.js lines 138-149 for
the gap between rings i and i+1. -/
def connStep (v : GeomScalars) (spokes : ℕ) (radiusBase ringGap : ℚ) (i : ℕ)
    (st : ℕ) : List Connector × ℕ :=
  mapState
    (connSegStep v spokes (radiusBase + (i : ℚ) * ringGap)
      (radiusBase + ((i : ℚ) + 1) * ringGap))
    (List.range spokes) st

/-- The body of generateSegments (src/script.js lines 86-152) as a
function of the data it actually consumes: the derived seed, the
content-word count and the scalar parameters.  The draws from the
stream happen in source order: ring count, ring gap, then per ring the
bias and per segment jitter, direction, opacity, then one angle jitter
per connector. -/
def generateCore (baseSeed wordCount : ℕ) (v : GeomScalars) : Geometry :=
  let d1 := rnd baseSeed
  let rings := (clampZ (3 + ⌊v.temporality * 3 + d1.1 * 2⌋) 3 7).toNat
  let spokes := chooseSpokes (if wordCount = 0 then 1 else wordCount)
  let radiusBase : ℚ := 100
  let d2 := rnd d1.2
  let ringGap := 28 + d2.1 * 6
  let sres := mapState (ringStep v spokes radiusBase ringGap)
    (List.range rings) d2.2
  let cres := mapState (connStep v spokes radiusBase ringGap)
    (List.range (rings - 1)) sres.2
  ⟨sres.1, cres.1, rings, spokes, radiusBase, ringGap⟩

/-- generateSegments of src/script.js lines 86-152: the seed is
hashStringToInt(p.seed + "|" + p.proposition) (code 124 is the vertical
bar) and the word count is the length of splitContentWords of the
proposition; line 94 turns a zero count into 1 via words.length || 1,
which generateCore reproduces. -/
def generateSegments (p : SemagramParams) : Geometry :=
  generateCore (hashStringToInt (p.seed ++ [124] ++ p.proposition))
    (splitContentWords p.proposition).length (scalarsOf p)

/-- The composite-mode rotation of layer i among n clauses
(src/script.js line 394), in units of TAU radians:
rot = (i * TAU) / (n * 7). -/
def compositeRot (numClauses i : ℕ) : ℚ := (i : ℚ) / ((numClauses : ℚ) * 7)

/-- The composite-mode scale of layer i (src/script.js line 395). -/
def compositeScale (i : ℕ) : ℚ := 1 - (i : ℚ) * 0.06

/-- The composite-mode group opacity of layer i
(src/script.js line 398). -/
def compositeOpacity (i : ℕ) : ℚ := 1 - (i : ℚ) * 0.07

/-- The blend-mode opacity of the phrase-A layer
(src/script.js line 409): 1 - blend * 0.65. -/
def blendOpacityA (blend : ℚ) : ℚ := 1 - blend * 0.65

/-- The blend-mode opacity of the phrase-B layer
(src/script.js line 412): 0.35 + blend * 0.65. -/
def blendOpacityB (blend : ℚ) : ℚ := 0.35 + blend * 0.65

/-- C3: for every input string (as its list of character codes), the
seed-derivation hash is a fixed function of that list (it is a pure
function of the code list by construction), its value fits in an
unsigned 32-bit integer, and it is never zero. -/
theorem C3_hash_stable_nonzero (k : List ℕ) :
    hashStringToInt k ≠ 0 ∧ hashStringToInt k < UINT32 := by
  refine ⟨?_, hashStringToInt_lt k⟩
  unfold hashStringToInt
  split
  · norm_num
  · assumption

theorem rnd_fst (st : ℕ) :
    (rnd st).1 = ((mulberry32Step st).1 : ℚ) / 4294967296 := rfl

theorem rnd_snd (st : ℕ) : (rnd st).2 = (mulberry32Step st).2 := rfl

theorem mapState_length {α β : Type} (f : α → ℕ → β × ℕ) (l : List α)
    (st : ℕ) : (mapState f l st).1.length = l.length := by
  induction l generalizing st with
  | nil => rfl
  | cons x xs ih => simp [mapState, ih]

theorem mapState_mem {α β : Type} (f : α → ℕ → β × ℕ) (l : List α) (st : ℕ)
    (b : β) (hb : b ∈ (mapState f l st).1) :
    ∃ a st2, a ∈ l ∧ b = (f a st2).1 := by
  induction l generalizing st with
  | nil => simp [mapState] at hb
  | cons x xs ih =>
    simp only [mapState, List.mem_cons] at hb
    rcases hb with hb | hb
    · exact ⟨x, st, List.mem_cons_self x xs, hb⟩
    · obtain ⟨a, st2, ha, he⟩ := ih _ hb
      exact ⟨a, st2, List.mem_cons_of_mem x ha, he⟩

theorem mapState_get {α β : Type} (f : α → ℕ → β × ℕ) :
    ∀ (l : List α) (st : ℕ) (i : ℕ) (hi : i < l.length)
      (hi2 : i < (mapState f l st).1.length),
      ∃ st2, (mapState f l st).1.get ⟨i, hi2⟩ = (f (l.get ⟨i, hi⟩) st2).1
  | [], _, i, hi, _ => absurd hi (by simp)
  | x :: xs, st, 0, _, _ => ⟨st, rfl⟩
  | x :: xs, st, j + 1, hi, hi2 => by
    have hj : j < xs.length := by simpa using hi
    have hj2 : j < (mapState f xs (f x st).2).1.length := by
      rw [mapState_length]; exact hj
    obtain ⟨st2, he⟩ := mapState_get f xs (f x st).2 j hj hj2
    exact ⟨st2, he⟩

theorem generateCore_rings (b w : ℕ) (v : GeomScalars) :
    (generateCore b w v).rings =
      (clampZ (3 + ⌊v.temporality * 3 + (rnd b).1 * 2⌋) 3 7).toNat := rfl

theorem generateCore_spokes (b w : ℕ) (v : GeomScalars) :
    (generateCore b w v).spokes = chooseSpokes (if w = 0 then 1 else w) := rfl

theorem generateCore_radiusBase (b w : ℕ) (v : GeomScalars) :
    (generateCore b w v).radiusBase = 100 := rfl

theorem generateCore_ringGap (b w : ℕ) (v : GeomScalars) :
    (generateCore b w v).ringGap = 28 + (rnd (rnd b).2).1 * 6 := rfl

theorem generateCore_segments (b w : ℕ) (v : GeomScalars) :
    (generateCore b w v).segments =
      (mapState
        (ringStep v (generateCore b w v).spokes 100 (generateCore b w v).ringGap)
        (List.range (generateCore b w v).rings) (rnd (rnd b).2).2).1 := rfl

theorem generateCore_connectors (b w : ℕ) (v : GeomScalars) :
    (generateCore b w v).connectors =
      (mapState
        (connStep v (generateCore b w v).spokes 100 (generateCore b w v).ringGap)
        (List.range ((generateCore b w v).rings - 1))
        (mapState
          (ringStep v (generateCore b w v).spokes 100 (generateCore b w v).ringGap)
          (List.range (generateCore b w v).rings) (rnd (rnd b).2).2).2).1 := rfl

theorem generateSegments_def (p : SemagramParams) :
    generateSegments p =
      generateCore (hashStringToInt (p.seed ++ [124] ++ p.proposition))
        (splitContentWords p.proposition).length (scalarsOf p) := rfl

theorem chooseSpokes_eq_natVersion (wc : ℕ) :
    chooseSpokes wc = candidates.getD (min ((wc - 3) / 3) 5) 0 := by
  unfold chooseSpokes
  congr 1
  have h1 : ((wc : ℚ) - 3) / 3 = (((wc : ℤ) - 3 : ℤ) : ℚ) / ((3 : ℕ) : ℚ) := by
    push_cast
    ring
  rw [h1, Rat.floor_intCast_div_natCast]
  have h2 : ((candidates.length : ℤ) - 1) = 5 := by norm_num [candidates]
  rw [h2]
  unfold clampZ
  omega

theorem candidates_getD_mem : ∀ i < 6, candidates.getD i 0 ∈ candidates := by
  decide

theorem candidates_getD_mono :
    ∀ i < 6, ∀ j < 6, i ≤ j → candidates.getD i 0 ≤ candidates.getD j 0 := by
  decide

theorem chooseSpokes_mem (wc : ℕ) : chooseSpokes wc ∈ candidates := by
  rw [chooseSpokes_eq_natVersion]
  exact candidates_getD_mem _ (by omega)

theorem chooseSpokes_mono {a b : ℕ} (h : a ≤ b) :
    chooseSpokes a ≤ chooseSpokes b := by
  rw [chooseSpokes_eq_natVersion, chooseSpokes_eq_natVersion]
  have hd : (a - 3) / 3 ≤ (b - 3) / 3 :=
    Nat.div_le_div_right (Nat.sub_le_sub_right h 3)
  exact candidates_getD_mono _ (by omega) _ (by omega) (by omega)

theorem chooseSpokes_ge_seven (wc : ℕ) : 7 ≤ chooseSpokes wc := by
  have hall : ∀ x ∈ candidates, 7 ≤ x := by decide
  exact hall _ (chooseSpokes_mem wc)

theorem clampZ_toNat_3_7 (n : ℤ) :
    3 ≤ (clampZ n 3 7).toNat ∧ (clampZ n 3 7).toNat ≤ 7 := by
  unfold clampZ
  omega

theorem generateSegments_rings_bounds (p : SemagramParams) :
    3 ≤ (generateSegments p).rings ∧ (generateSegments p).rings ≤ 7 := by
  rw [generateSegments_def, generateCore_rings]
  exact clampZ_toNat_3_7 _

theorem generateSegments_spokes_eq (p : SemagramParams) :
    (generateSegments p).spokes =
      chooseSpokes (if (splitContentWords p.proposition).length = 0 then 1
        else (splitContentWords p.proposition).length) := by
  rw [generateSegments_def, generateCore_spokes]

theorem ringGap_bounds (st : ℕ) :
    28 ≤ 28 + (rnd st).1 * 6 ∧ 28 + (rnd st).1 * 6 < 34 := by
  have h0 := rnd_nonneg st
  have h1 := rnd_lt_one st
  constructor <;> nlinarith

theorem generateSegments_ringGap_bounds (p : SemagramParams) :
    28 ≤ (generateSegments p).ringGap ∧ (generateSegments p).ringGap < 34 := by
  rw [generateSegments_def, generateCore_ringGap]
  exact ringGap_bounds _

theorem ringStep_length (v : GeomScalars) (spokes : ℕ) (rb gap : ℚ)
    (i st : ℕ) : ((ringStep v spokes rb gap i st).1).length = spokes := by
  simp [ringStep, mapState_length]

theorem connStep_length (v : GeomScalars) (spokes : ℕ) (rb gap : ℚ)
    (i st : ℕ) : ((connStep v spokes rb gap i st).1).length = spokes := by
  simp [connStep, mapState_length]

theorem generateSegments_segments_length (p : SemagramParams) :
    (generateSegments p).segments.length = (generateSegments p).rings := by
  rw [generateSegments_def, generateCore_segments, mapState_length,
    List.length_range]

theorem generateSegments_connectors_length (p : SemagramParams) :
    (generateSegments p).connectors.length = (generateSegments p).rings - 1 := by
  rw [generateSegments_def, generateCore_connectors, mapState_length,
    List.length_range]

theorem generateSegments_segment_rows (p : SemagramParams) :
    ∀ ring ∈ (generateSegments p).segments,
      ring.length = (generateSegments p).spokes := by
  intro ring hring
  rw [generateSegments_def] at hring ⊢
  rw [generateCore_segments] at hring
  obtain ⟨i, st2, _, he⟩ := mapState_mem _ _ _ _ hring
  rw [he, ringStep_length]

theorem generateSegments_connector_rows (p : SemagramParams) :
    ∀ cs ∈ (generateSegments p).connectors,
      cs.length = (generateSegments p).spokes := by
  intro cs hcs
  rw [generateSegments_def] at hcs ⊢
  rw [generateCore_connectors] at hcs
  obtain ⟨i, st2, _, he⟩ := mapState_mem _ _ _ _ hcs
  rw [he, connStep_length]

theorem segStep_r (v : GeomScalars) (spokes : ℕ) (r bias : ℚ) (i s st : ℕ) :
    ((segStep v spokes r bias i s st).1).r = r := rfl

theorem segStep_w (v : GeomScalars) (spokes : ℕ) (r bias : ℚ) (i s st : ℕ) :
    ((segStep v spokes r bias i s st).1).w =
      strokeWidth v.certainty v.emphasis i := rfl

theorem ringStep_mem_r (v : GeomScalars) (spokes : ℕ) (rb gap : ℚ)
    (i st : ℕ) (seg : ArcSeg) (h : seg ∈ (ringStep v spokes rb gap i st).1) :
    seg.r = rb + (i : ℚ) * gap := by
  simp only [ringStep] at h
  obtain ⟨s, st2, _, he⟩ := mapState_mem _ _ _ _ h
  rw [he, segStep_r]

theorem mapState_getD {α β : Type} (f : α → ℕ → List β × ℕ) :
    ∀ (l : List α) (st : ℕ) (i : ℕ), i < l.length →
      ∃ st2 a, a ∈ l ∧ (mapState f l st).1.getD i [] = (f a st2).1 ∧
        (∀ hi : i < l.length, a = l.get ⟨i, hi⟩)
  | [], _, i, hi => absurd hi (by simp)
  | x :: xs, st, 0, _ =>
    ⟨st, x, List.mem_cons_self x xs, rfl, fun _ => rfl⟩
  | x :: xs, st, j + 1, hi => by
    have hj : j < xs.length := by simpa using hi
    obtain ⟨st2, a, ha, he, hg⟩ := mapState_getD f xs (f x st).2 j hj
    refine ⟨st2, a, List.mem_cons_of_mem x ha, ?_, ?_⟩
    · simpa [mapState] using he
    · intro hi2
      exact hg hj

theorem generateCore_seg_radius (b w : ℕ) (v : GeomScalars) (i : ℕ) :
    ∀ seg ∈ (generateCore b w v).segments.getD i [],
      seg.r = 100 + (i : ℚ) * (generateCore b w v).ringGap := by
  intro seg hseg
  by_cases hi : i < (generateCore b w v).segments.length
  · rw [generateCore_segments] at hseg hi
    have hlen : i < (List.range (generateCore b w v).rings).length := by
      rwa [mapState_length] at hi
    obtain ⟨st2, a, ha, he, hg⟩ :=
      mapState_getD
        (ringStep v (generateCore b w v).spokes 100 (generateCore b w v).ringGap)
        (List.range (generateCore b w v).rings) (rnd (rnd b).2).2 i hlen
    rw [he] at hseg
    have hai : a = i := by
      have h2 := hg hlen
      rwa [List.get_range] at h2
    rw [hai] at hseg
    exact ringStep_mem_r _ _ _ _ _ _ _ hseg
  · rw [List.getD_eq_default _ _ (by omega)] at hseg
    simp at hseg

theorem generateSegments_seg_radius (p : SemagramParams) (i : ℕ) :
    ∀ seg ∈ (generateSegments p).segments.getD i [],
      seg.r = (generateSegments p).radiusBase +
        (i : ℚ) * (generateSegments p).ringGap := by
  rw [generateSegments_def, generateCore_radiusBase]
  exact generateCore_seg_radius _ _ _ i

theorem ringStep_mem_w (v : GeomScalars) (spokes : ℕ) (rb gap : ℚ)
    (i st : ℕ) (seg : ArcSeg) (h : seg ∈ (ringStep v spokes rb gap i st).1) :
    seg.w = strokeWidth v.certainty v.emphasis i := by
  simp only [ringStep] at h
  obtain ⟨s, st2, _, he⟩ := mapState_mem _ _ _ _ h
  rw [he, segStep_w]

theorem generateCore_seg_w (b w : ℕ) (v : GeomScalars) (i : ℕ) :
    ∀ seg ∈ (generateCore b w v).segments.getD i [],
      seg.w = strokeWidth v.certainty v.emphasis i := by
  intro seg hseg
  by_cases hi : i < (generateCore b w v).segments.length
  · rw [generateCore_segments] at hseg hi
    have hlen : i < (List.range (generateCore b w v).rings).length := by
      rwa [mapState_length] at hi
    obtain ⟨st2, a, ha, he, hg⟩ :=
      mapState_getD
        (ringStep v (generateCore b w v).spokes 100 (generateCore b w v).ringGap)
        (List.range (generateCore b w v).rings) (rnd (rnd b).2).2 i hlen
    rw [he] at hseg
    have hai : a = i := by
      have h2 := hg hlen
      rwa [List.get_range] at h2
    rw [hai] at hseg
    exact ringStep_mem_w _ _ _ _ _ _ _ hseg
  · rw [List.getD_eq_default _ _ (by omega)] at hseg
    simp at hseg

theorem generateSegments_seg_w (p : SemagramParams) (i : ℕ) :
    ∀ seg ∈ (generateSegments p).segments.getD i [],
      seg.w = strokeWidth p.certainty p.emphasis i := by
  rw [generateSegments_def]
  exact generateCore_seg_w _ _ _ i

/-- Example input: proposition "cat", seed "arrival", and the scalar
values of defaultParams (src/script.js lines 36-47). -/
def exCat : SemagramParams :=
  { proposition := [99, 97, 116], certainty := 0.68, modality := 0.4,
    temporality := 0.82, agency := 0.55, perspective := Perspective.first,
    negation := false, hypothetical := false, emphasis := 0.9,
    seed := [97, 114, 114, 105, 118, 97, 108] }

/-- Example input: proposition "cat sat", otherwise identical to
exCat.  Both propositions contain the word "cat". -/
def exCatSat : SemagramParams :=
  { exCat with proposition := [99, 97, 116, 32, 115, 97, 116] }

/-- Example input: proposition "the" (a stop word), otherwise identical
to exCat. -/
def exThe : SemagramParams :=
  { exCat with proposition := [116, 104, 101] }

/-- C1 (code_bug evidence): the code derives the geometry seed from the
whole phrase, so the two phrases "cat" and "cat sat" — both containing
the word "cat", with identical scalar parameters and identical seed
text — produce different geometry (already their ring gaps differ).
Hence no part of the output is a function of the word "cat" and the
parameter vector alone, contradicting the per-word grapheme
consistency the specification (and the repository requirements
document) demand. -/
theorem C1_phrase_dependent_grapheme :
    (generateSegments exCat).ringGap ≠ (generateSegments exCatSat).ringGap := by
  have hA : hashStringToInt (exCat.seed ++ [124] ++ exCat.proposition) =
      3530652702 := by decide
  have hB : hashStringToInt (exCatSat.seed ++ [124] ++ exCatSat.proposition) =
      1889830494 := by decide
  have sA : (mulberry32Step 3530652702).2 = 1067251219 := by decide
  have sB : (mulberry32Step 1889830494).2 = 3721396307 := by decide
  have oA : (mulberry32Step 1067251219).1 = 583054436 := by decide
  have oB : (mulberry32Step 3721396307).1 = 862846376 := by decide
  rw [generateSegments_def, generateSegments_def, generateCore_ringGap,
    generateCore_ringGap, hA, hB, rnd_snd, rnd_snd, sA, sB, rnd_fst, rnd_fst,
    oA, oB]
  norm_num

/-- C2: the geometry generator consumes its input only through the
derived 32-bit seed (which seeds the single mulberry32 stream), the
content-word count and the scalar parameter vector, so two inputs that
agree there produce identical ring, segment and connector sequences —
every arc descriptor, stroke width, dash pair, opacity and connector
descriptor is equal. -/
theorem C2_generator_deterministic (p q : SemagramParams)
    (hseed : hashStringToInt (p.seed ++ [124] ++ p.proposition) =
      hashStringToInt (q.seed ++ [124] ++ q.proposition))
    (hwords : (splitContentWords p.proposition).length =
      (splitContentWords q.proposition).length)
    (hv : scalarsOf p = scalarsOf q) :
    generateSegments p = generateSegments q := by
  rw [generateSegments_def, generateSegments_def, hseed, hwords, hv]

/-- Witness for C2 at the concrete input exCat. -/
theorem C2_witness : generateSegments exCat = generateSegments exCat :=
  C2_generator_deterministic exCat exCat rfl rfl rfl

/-- C4 counterexample: tokenization itself performs no fallback.  For
the input "the" (a stop word) the extraction is empty and
splitContentWords returns the empty list — not the full raw input as
one token. -/
theorem C4_counterexample : splitContentWords [116, 104, 101] = [] := by
  decide

/-- C4 amended: when splitContentWords is empty, the fallback sits in
generateSegments (line 94, words.length || 1): the word count is
replaced by 1 before choosing the spoke count, so spoke selection
never sees zero content words and at least 7 spokes result. -/
theorem C4_token_fallback_amended (p : SemagramParams)
    (h : splitContentWords p.proposition = []) :
    (generateSegments p).spokes = chooseSpokes 1 ∧
    7 ≤ (generateSegments p).spokes := by
  have hs := generateSegments_spokes_eq p
  rw [h] at hs
  simp only [List.length_nil, if_pos] at hs
  exact ⟨hs, by rw [hs]; exact chooseSpokes_ge_seven 1⟩

/-- Witness for C4 at the concrete all-stop-word input "the". -/
theorem C4_witness :
    splitContentWords exThe.proposition = [] ∧
    (generateSegments exThe).spokes = chooseSpokes 1 ∧
    7 ≤ (generateSegments exThe).spokes := by
  have h : splitContentWords exThe.proposition = [] := by decide
  exact ⟨h, C4_token_fallback_amended exThe h⟩

/-- C5: in blend mode the two layer opacities are linear (affine)
functions of the blend weight — layer A interpolates from 1 to 0.35
and layer B from 0.35 to 1 — and on [0, 1] weight 0 gives layer A its
maximum 1 and layer B its floor 0.35, symmetrically at weight 1. -/
theorem C5_blend_linear :
    (∀ w : ℚ, blendOpacityA w = lerp 1 0.35 w ∧
      blendOpacityB w = lerp 0.35 1 w) ∧
    (blendOpacityA 0 = 1 ∧ blendOpacityB 0 = 0.35 ∧
      blendOpacityA 1 = 0.35 ∧ blendOpacityB 1 = 1) ∧
    (∀ w : ℚ, 0 ≤ w → w ≤ 1 →
      blendOpacityA w ≤ blendOpacityA 0 ∧ blendOpacityB 0 ≤ blendOpacityB w ∧
      blendOpacityA 1 ≤ blendOpacityA w ∧ blendOpacityB w ≤ blendOpacityB 1) := by
  refine ⟨?_, ⟨?_, ?_, ?_, ?_⟩, ?_⟩
  · intro w
    constructor
    · unfold blendOpacityA lerp; ring
    · unfold blendOpacityB lerp; ring
  · unfold blendOpacityA; norm_num
  · unfold blendOpacityB; norm_num
  · unfold blendOpacityA; norm_num
  · unfold blendOpacityB; norm_num
  · intro w h0 h1
    unfold blendOpacityA blendOpacityB
    refine ⟨by nlinarith, by nlinarith, by nlinarith, by nlinarith⟩

/-- Witness for C5 at the concrete blend weight 1/2. -/
theorem C5_witness :
    blendOpacityA 0.5 = lerp 1 0.35 0.5 ∧
    blendOpacityA 0.5 ≤ blendOpacityA 0 ∧
    blendOpacityB 0 ≤ blendOpacityB 0.5 := by
  refine ⟨(C5_blend_linear.1 0.5).1, ?_, ?_⟩
  · exact (C5_blend_linear.2.2 0.5 (by norm_num) (by norm_num)).1
  · exact (C5_blend_linear.2.2 0.5 (by norm_num) (by norm_num)).2.1

/-- C6 counterexample: the composite angular step is not independent
of the clause count.  Layer 1 is rotated by TAU/14 with two clauses
but by TAU/21 with three clauses (rotations in units of TAU), so the
step is not one fixed angle regardless of how many clauses there
are. -/
theorem C6_counterexample : compositeRot 2 1 ≠ compositeRot 3 1 := by
  unfold compositeRot
  norm_num

/-- C6 amended: for a fixed clause count n the rotation of layer i is
i times the step TAU/(7n) — linear in the index, but the step size
depends on n.  Scale 1 - 0.06 i and group opacity 1 - 0.07 i decay
strictly with the index, and with exactly two clauses the second layer
is rotated by one step TAU/14 with scale 0.94 < 1. -/
theorem C6_composite_layers_amended (n : ℕ) (hn : 0 < n) :
    (∀ i : ℕ, compositeRot n i = (i : ℚ) * (1 / ((n : ℚ) * 7))) ∧
    (∀ i : ℕ, compositeScale (i + 1) < compositeScale i) ∧
    (∀ i : ℕ, compositeOpacity (i + 1) < compositeOpacity i) ∧
    compositeRot 2 1 = 1 / 14 ∧ compositeScale 1 < compositeScale 0 := by
  refine ⟨?_, ?_, ?_, ?_, ?_⟩
  · intro i; unfold compositeRot; ring
  · intro i; unfold compositeScale; push_cast; linarith
  · intro i; unfold compositeOpacity; push_cast; linarith
  · unfold compositeRot; norm_num
  · unfold compositeScale; norm_num

/-- Witness for C6 at the concrete clause count 2. -/
theorem C6_witness :
    compositeRot 2 1 = 1 / 14 ∧ compositeScale 1 < compositeScale 0 :=
  ⟨(C6_composite_layers_amended 2 (by norm_num)).2.2.2.1,
   (C6_composite_layers_amended 2 (by norm_num)).2.2.2.2⟩

/-- C7: for temporality in [0, 1] (indeed for any input) the ring
count is clamped into [3, 7], the spoke count is one of the fixed
candidates 7, 9, 11, 13, 17, 19, and chooseSpokes is a nondecreasing
function of the content-word count. -/
theorem C7_ring_spoke_bounds (p : SemagramParams)
    (h0 : 0 ≤ p.temporality) (h1 : p.temporality ≤ 1) :
    (3 ≤ (generateSegments p).rings ∧ (generateSegments p).rings ≤ 7) ∧
    (generateSegments p).spokes ∈ candidates ∧
    ∀ a b : ℕ, a ≤ b → chooseSpokes a ≤ chooseSpokes b := by
  refine ⟨generateSegments_rings_bounds p, ?_,
    fun a b h => chooseSpokes_mono h⟩
  rw [generateSegments_spokes_eq]
  exact chooseSpokes_mem _

/-- Witness for C7 at the concrete input exCat (temporality 0.82). -/
theorem C7_witness :
    (0 : ℚ) ≤ exCat.temporality ∧ exCat.temporality ≤ 1 ∧
    3 ≤ (generateSegments exCat).rings ∧ (generateSegments exCat).rings ≤ 7 ∧
    (generateSegments exCat).spokes ∈ candidates ∧
    chooseSpokes 2 ≤ chooseSpokes 5 := by
  have e0 : (0 : ℚ) ≤ exCat.temporality := by norm_num [exCat]
  have e1 : exCat.temporality ≤ 1 := by norm_num [exCat]
  have h := C7_ring_spoke_bounds exCat e0 e1
  exact ⟨e0, e1, h.1.1, h.1.2, h.2.1, h.2.2 2 5 (by norm_num)⟩

theorem clamp_mono {a b lo hi : ℚ} (h : a ≤ b) :
    clamp a lo hi ≤ clamp b lo hi :=
  max_le_max le_rfl (min_le_min le_rfl h)

theorem clamp_bounds (a lo hi : ℚ) (h : lo ≤ hi) :
    lo ≤ clamp a lo hi ∧ clamp a lo hi ≤ hi :=
  ⟨le_max_left _ _, max_le h (min_le_left _ _)⟩

/-- C8: the stroke width of src/script.js line 116 is nondecreasing in
certainty and in emphasis (for ring indices that occur, i ≤ 6, and
nonnegative parameters), always clamped into [0.8, 7], and tapers
inward: it is nonincreasing in the ring index. -/
theorem C8_stroke_width_monotone :
    (∀ c c' e : ℚ, ∀ i : ℕ, 0 ≤ e → i ≤ 6 → c ≤ c' →
      strokeWidth c e i ≤ strokeWidth c' e i) ∧
    (∀ c e e' : ℚ, ∀ i : ℕ, 0 ≤ c → i ≤ 6 → e ≤ e' →
      strokeWidth c e i ≤ strokeWidth c e' i) ∧
    (∀ c e : ℚ, ∀ i : ℕ, 0.8 ≤ strokeWidth c e i ∧ strokeWidth c e i ≤ 7) ∧
    (∀ c e : ℚ, ∀ i : ℕ, 0 ≤ c → 0 ≤ e →
      strokeWidth c e (i + 1) ≤ strokeWidth c e i) := by
  refine ⟨?_, ?_, ?_, ?_⟩
  · intro c c' e i he hi hc
    unfold strokeWidth
    apply clamp_mono
    have hcast : (i : ℚ) ≤ 6 := by exact_mod_cast hi
    have hM : 0 ≤ lerp 0.8 1.15 e * (1 - (i : ℚ) * 0.03) := by
      unfold lerp; nlinarith
    unfold lerp
    unfold lerp at hM
    nlinarith [mul_nonneg (sub_nonneg.2 hc) hM]
  · intro c e e' i hc hi he
    unfold strokeWidth
    apply clamp_mono
    have hcast : (i : ℚ) ≤ 6 := by exact_mod_cast hi
    have hA : 0 ≤ lerp 1.2 5.5 c * (1 - (i : ℚ) * 0.03) := by
      unfold lerp; nlinarith
    unfold lerp
    unfold lerp at hA
    nlinarith [mul_nonneg (sub_nonneg.2 he) hA]
  · intro c e i
    exact clamp_bounds _ 0.8 7 (by norm_num)
  · intro c e i hc he
    unfold strokeWidth
    apply clamp_mono
    have hA : 0 ≤ lerp 1.2 5.5 c * lerp 0.8 1.15 e := by
      unfold lerp; nlinarith
    unfold lerp
    unfold lerp at hA
    push_cast
    nlinarith

/-- Witness for C8 at concrete parameter values and ring index 2. -/
theorem C8_witness :
    strokeWidth 0.3 0.5 2 ≤ strokeWidth 0.6 0.5 2 ∧
    strokeWidth 0.3 0.5 2 ≤ strokeWidth 0.3 0.7 2 ∧
    (0.8 ≤ strokeWidth 0.3 0.5 2 ∧ strokeWidth 0.3 0.5 2 ≤ 7) ∧
    strokeWidth 0.3 0.5 3 ≤ strokeWidth 0.3 0.5 2 := by
  refine ⟨?_, ?_, C8_stroke_width_monotone.2.2.1 0.3 0.5 2, ?_⟩
  · exact C8_stroke_width_monotone.1 0.3 0.6 0.5 2 (by norm_num) (by norm_num)
      (by norm_num)
  · exact C8_stroke_width_monotone.2.1 0.3 0.5 0.7 2 (by norm_num) (by norm_num)
      (by norm_num)
  · exact C8_stroke_width_monotone.2.2.2 0.3 0.5 2 (by norm_num) (by norm_num)

/-- C9: structural well-formedness of the generated geometry: there
are exactly rings segment rows of exactly spokes segments each,
rings - 1 connector rows of exactly spokes connectors each, the ring
gap is positive, every segment of row i has radius
radiusBase + i * ringGap, and these radii strictly increase with the
ring index. -/
theorem C9_structural_wellformed (p : SemagramParams) :
    (generateSegments p).segments.length = (generateSegments p).rings ∧
    (∀ ring ∈ (generateSegments p).segments,
      ring.length = (generateSegments p).spokes) ∧
    (generateSegments p).connectors.length = (generateSegments p).rings - 1 ∧
    (∀ cs ∈ (generateSegments p).connectors,
      cs.length = (generateSegments p).spokes) ∧
    0 < (generateSegments p).ringGap ∧
    (∀ i : ℕ, ∀ seg ∈ (generateSegments p).segments.getD i [],
      seg.r = (generateSegments p).radiusBase +
        (i : ℚ) * (generateSegments p).ringGap) ∧
    (∀ i j : ℕ, i < j →
      (generateSegments p).radiusBase +
          (i : ℚ) * (generateSegments p).ringGap <
        (generateSegments p).radiusBase +
          (j : ℚ) * (generateSegments p).ringGap) := by
  refine ⟨generateSegments_segments_length p, generateSegments_segment_rows p,
    generateSegments_connectors_length p, generateSegments_connector_rows p,
    ?_, generateSegments_seg_radius p, ?_⟩
  · have h := (generateSegments_ringGap_bounds p).1
    linarith
  · intro i j hij
    have hgap := (generateSegments_ringGap_bounds p).1
    have hcast : (i : ℚ) < (j : ℚ) := by exact_mod_cast hij
    nlinarith

/-- A throwaway arc-segment value used only as a getD default. -/
def dummySeg : ArcSeg := ⟨0, ⟨0, 0⟩, ⟨0, 0⟩, 0, none, 0⟩

/-- Witness for C9 at the concrete input exCat: row and column counts,
and the radius of the first segment of the first ring. -/
theorem C9_witness :
    (generateSegments exCat).segments.length = (generateSegments exCat).rings ∧
    ((generateSegments exCat).segments.getD 0 []).length =
      (generateSegments exCat).spokes ∧
    (((generateSegments exCat).segments.getD 0 []).getD 0 dummySeg).r =
      (generateSegments exCat).radiusBase +
        ((0 : ℕ) : ℚ) * (generateSegments exCat).ringGap ∧
    (generateSegments exCat).radiusBase +
        ((0 : ℕ) : ℚ) * (generateSegments exCat).ringGap <
      (generateSegments exCat).radiusBase +
        ((1 : ℕ) : ℚ) * (generateSegments exCat).ringGap := by
  have h := C9_structural_wellformed exCat
  have hrlen : 0 < (generateSegments exCat).segments.length := by
    have hr := (generateSegments_rings_bounds exCat).1
    have hl := generateSegments_segments_length exCat
    omega
  have hmem : (generateSegments exCat).segments.getD 0 [] ∈
      (generateSegments exCat).segments := by
    rw [List.getD_eq_get _ _ hrlen]
    exact List.get_mem _ _ _
  have hrow := h.2.1 _ hmem
  have hsp : 7 ≤ (generateSegments exCat).spokes := by
    rw [generateSegments_spokes_eq]
    exact chooseSpokes_ge_seven _
  have hclen : 0 < ((generateSegments exCat).segments.getD 0 []).length := by
    omega
  have hmem2 : ((generateSegments exCat).segments.getD 0 []).getD 0 dummySeg ∈
      (generateSegments exCat).segments.getD 0 [] := by
    rw [List.getD_eq_get _ _ hclen]
    exact List.get_mem _ _ _
  exact ⟨h.1, hrow, h.2.2.2.2.2.1 0 _ hmem2, h.2.2.2.2.2.2 0 1 (by norm_num)⟩

/-- C10: totality at the public interface: the spoke-chooser index is
clamped into the candidate bounds so chooseSpokes always lands in the
candidate list (hence is at least 7) for every word count including 0,
the generated geometry always has at least 7 spokes, and no segment
row is empty. -/
theorem C10_total_spokes :
    (∀ wc : ℕ, chooseSpokes wc ∈ candidates ∧ 7 ≤ chooseSpokes wc) ∧
    (∀ p : SemagramParams, 7 ≤ (generateSegments p).spokes ∧
      ∀ i : ℕ, i < (generateSegments p).segments.length →
        0 < ((generateSegments p).segments.getD i []).length) := by
  refine ⟨fun wc => ⟨chooseSpokes_mem wc, chooseSpokes_ge_seven wc⟩,
    fun p => ⟨?_, ?_⟩⟩
  · rw [generateSegments_spokes_eq]
    exact chooseSpokes_ge_seven _
  · intro i hi
    have hmem : (generateSegments p).segments.getD i [] ∈
        (generateSegments p).segments := by
      rw [List.getD_eq_get _ _ hi]
      exact List.get_mem _ _ _
    have hrow := generateSegments_segment_rows p _ hmem
    have hsp : 7 ≤ (generateSegments p).spokes := by
      rw [generateSegments_spokes_eq]
      exact chooseSpokes_ge_seven _
    omega

/-- Witness for C10 at word count 0 and the concrete input exCat. -/
theorem C10_witness :
    7 ≤ chooseSpokes 0 ∧ 7 ≤ (generateSegments exCat).spokes ∧
    0 < ((generateSegments exCat).segments.getD 0 []).length := by
  refine ⟨(C10_total_spokes.1 0).2, (C10_total_spokes.2 exCat).1,
    (C10_total_spokes.2 exCat).2 0 ?_⟩
  have hr := (generateSegments_rings_bounds exCat).1
  have hl := generateSegments_segments_length exCat
  omega

end Heptapod
